import Mathlib

/-!
Shallow embedding of `bsfh/parameters.py` (the prospector parameter-state
core) and proofs about it.

Modelling conventions:
* numeric values are rationals (`ℚ`); numpy 1-d arrays are `List ℚ`;
  `np.atleast_1d` is the identity on such lists (scalars are modelled as
  one-element lists);
* Python dicts are association lists (`List (String × _)`): item assignment
  is `dictInsert` (replace the entry in place if the key exists, append
  otherwise), item access is `dictLookup`;
* Python exceptions are an explicit error type `PyErr`; a method that can
  raise returns `Except PyErr _`, a method that mutates `self`/shared state
  returns the (possibly partially) mutated state together with
  `Option PyErr`, so that writes performed before a raise are kept;
* the class attribute `params = {}` of `ProspectrParams` is a single shared
  mutable dict: `configure` and `set_parameters` only ever do item
  assignment (`self.params[...] = ...`) and never rebind `self.params`, so
  all instances alias the class-level dict.  It is therefore modelled as a
  separate `PyWorld` value threaded through the methods, while attributes
  that the methods rebind (`_config_dict`, `theta_index`, `ndim`, `obs`,
  `ndof`, `initial_theta`, `config_list`, `run_params`) live in the
  per-instance record `Inst`.
-/

/-- Python exceptions that the embedded code can raise. -/
inductive PyErr where
  | nameError (id : String)
  | keyError (key : String)
  | valueError (msg : String)
  | assertionError
deriving DecidableEq

/-- A model-parameter descriptor (one entry of `config_list` /
`model_config`, cf. `param_template`): name, vector length `N`, free flag,
initial value, prior arguments.  The prior function itself is an external
callable from `bsfh.priors`; it is never invoked before the embedded code
raises, so it is represented by an opaque identifier. -/
structure PD where
  name : String
  N : Nat
  isfree : Bool
  init : List ℚ
  prior_args : List (String × ℚ)
  prior_function : Option String
deriving DecidableEq

/-- The run-parameter entries that `add_obs` consults (`run_params.get`
with default `True`); `none` models an absent key. -/
structure RunParams where
  logify_spectrum : Option Bool
  normalize_spectrum : Option Bool
deriving DecidableEq

/-- An observation bundle as accessed by `add_obs`. -/
structure Obs where
  spectrum : Option (List ℚ)
  unc : Option (List ℚ)
  mask : List Bool
  maggies : Option (List ℚ)
  phot_mask : List Bool
deriving DecidableEq

/-- Per-instance attributes of `ProspectrParams` (the ones the methods
rebind via `self.x = ...`, hence instance-level after construction). -/
structure Inst where
  run_params : RunParams
  config_list : List PD
  config_dict : List (String × PD)
  theta_index : List (String × Nat × Nat)
  ndim : Nat
  initial_theta : List ℚ
  obs : Option Obs
  ndof : Int
deriving DecidableEq

/-- The shared class-level mutable state: the `params` dict.  `configure`
and `set_parameters` mutate it in place (`self.params[par] = ...`), so all
instances observe the same dict. -/
structure PyWorld where
  params : List (String × List ℚ)
deriving DecidableEq

/-- Python dict item access `d[k]` (`none` = `KeyError`). -/
def dictLookup {α : Type} : List (String × α) → String → Option α
  | [], _ => none
  | (k', v') :: rest, k => if k' = k then some v' else dictLookup rest k

/-- Python dict item assignment `d[k] = v`: replace the existing entry in
place, or append a new one. -/
def dictInsert {α : Type} : List (String × α) → String → α → List (String × α)
  | [], k, v => [(k, v)]
  | (k', v') :: rest, k, v =>
    if k' = k then (k, v) :: rest else (k', v') :: dictInsert rest k v

/-- Model of `np.atleast_1d` on already-1-d data: the identity (scalars are
modelled as one-element lists throughout). -/
def atleast_1d (v : List ℚ) : List ℚ := v

/-- Source `plist_to_pdict`: convert a parameter list to a dict keyed by
parameter name.  The source deepcopies and pops `'name'` from each element;
here the key is the descriptor's `name` field (the value's `name` field is
simply never consulted through the dict afterwards).  Duplicate names are
silently overwritten by the later entry, exactly as Python dict assignment
does. -/
def plist_to_pdict (inplist : List PD) : List (String × PD) :=
  inplist.foldl (fun pdict p => dictInsert pdict p.name p) []

/-- Source `pdict_to_plist`: on a list input the source hits the
`type(pdict) is list` branch and returns a copy `pdict[:]`. -/
def pdict_to_plist (pdict : List PD) : List PD := pdict

/-- The class attribute `model_config = []`.  No method ever assigns
`self.model_config`, so every attribute read resolves to this class-level
empty list. -/
def model_config : List PD := []

/-- Source list comprehension of the `free_params` property applied to an
arbitrary plist: names of the entries with `isfree` true. -/
def free_params_of (plist : List PD) : List String :=
  (plist.filter fun k => k.isfree).map fun k => k.name

/-- Source list comprehension of the `fixed_params` property: names of the
entries whose `isfree` is `False`. -/
def fixed_params_of (plist : List PD) : List String :=
  (plist.filter fun k => k.isfree = false).map fun k => k.name

namespace ProspectrParams

/-- The `free_params` property: reads `self.model_config`, which is always
the class-level empty list (no method assigns it). -/
def free_params (_i : Inst) : List String :=
  free_params_of (pdict_to_plist model_config)

/-- The `fixed_params` property. -/
def fixed_params (_i : Inst) : List String :=
  fixed_params_of (pdict_to_plist model_config)

/-- Loop of `map_theta`: `for par in free: theta_index[par] = (count,
count + config_dict[par]['N']); count += ...`.  `config_dict[par]` raises
`KeyError` when `par` is missing. -/
def map_theta_loop (cfg : List (String × PD)) :
    List String → List (String × Nat × Nat) → Nat →
    Except PyErr (List (String × Nat × Nat) × Nat)
  | [], ti, count => .ok (ti, count)
  | par :: rest, ti, count =>
    match dictLookup cfg par with
    | none => .error (.keyError par)
    | some pd => map_theta_loop cfg rest (dictInsert ti par (count, count + pd.N)) (count + pd.N)

/-- Source `map_theta`: rebuild `theta_index` from scratch and set `ndim`
to the final counter.  The `self._config_dict` and `self.free_params`
attributes it reads are passed explicitly. -/
def map_theta (cfg : List (String × PD)) (free : List String) :
    Except PyErr (List (String × Nat × Nat) × Nat) :=
  map_theta_loop cfg free [] 0

/-- Model of numpy slice assignment `theta[s:e] = v` on a list: the slice
bounds clamp to the array length; the value must match the slice length or
be a length-1 array (broadcast); otherwise `ValueError`. -/
def setSlice (th : List ℚ) (s e : Nat) (v : List ℚ) : Option (List ℚ) :=
  let s' := min s th.length
  let e' := min e th.length
  if v.length = e' - s' then some (th.take s' ++ v ++ th.drop e')
  else if v.length = 1 then
    some (th.take s' ++ List.replicate (e' - s') (v.headD 0) ++ th.drop e')
  else none

/-- Loop of the `theta` property: `theta[start:end] = self.params[k]` for
each entry of `theta_index`. -/
def theta_loop (w : PyWorld) :
    List (String × Nat × Nat) → List ℚ → Except PyErr (List ℚ)
  | [], th => .ok th
  | (k, s, e) :: rest, th =>
    match dictLookup w.params k with
    | none => .error (.keyError k)
    | some v =>
      match setSlice th s e v with
      | none => .error (.valueError k)
      | some th' => theta_loop w rest th'

/-- The `theta` property: `np.zeros(self.ndim)` then fill the slices from
the (shared) `params` dict. -/
def theta (i : Inst) (w : PyWorld) : Except PyErr (List ℚ) :=
  theta_loop w i.theta_index (List.replicate i.ndim 0)

/-- Source `configure` (always called with no keyword overrides, as in
`__init__` and `add_obs`): rebuild `_config_dict`, run `map_theta`,
propagate every descriptor's `init` into the shared `params` dict, and
snapshot `initial_theta`. -/
def configure (i : Inst) (w : PyWorld) : Except PyErr (Inst × PyWorld) :=
  let cfg := plist_to_pdict i.config_list
  match map_theta cfg (free_params_of (pdict_to_plist model_config)) with
  | .error e => .error e
  | .ok (ti, n) =>
    let w' : PyWorld :=
      ⟨cfg.foldl (fun ps kv => dictInsert ps kv.1 (atleast_1d kv.2.init)) w.params⟩
    let i' : Inst :=
      { i with config_dict := cfg, theta_index := ti, ndim := n }
    match theta i' w' with
    | .error e => .error e
    | .ok th => .ok ({ i' with initial_theta := th }, w')

/-- Source `__init__(run_params, config_list)`: store the two arguments and
run `configure`.  The remaining `Inst` fields start at the class-attribute
values (`{}`-like empties); `configure` overwrites all of the ones that are
read later. -/
def init (run_params : RunParams) (config_list : List PD) (w : PyWorld) :
    Except PyErr (Inst × PyWorld) :=
  configure ⟨run_params, config_list, [], [], 0, [], none, 0⟩ w

/-- Source `set_parameters(theta)`: `assert len(theta) == self.ndim`, then
`for k, v in self.theta_index.iteritems(): start, end = v;
self.params[p] = np.atleast_1d(theta[start:end])`.  The assignment target
reads the name `p`, which is bound nowhere in the method (the loop binds
`k`), so the first iteration raises `NameError: name 'p' is not defined`
before any write to `params` happens; with an empty `theta_index` the loop
body never runs and nothing is written either. -/
def set_parameters (i : Inst) (w : PyWorld) (th : List ℚ) :
    PyWorld × Option PyErr :=
  if th.length = i.ndim then
    match i.theta_index with
    | [] => (w, none)
    | _ :: _ => (w, some (.nameError "p"))
  else (w, some .assertionError)

/-- Loop body of `prior_product`: for each `theta_index` entry the source
evaluates `self._config_dict[k]['prior_function'](theta[start:stop], ...)`.
Python evaluates `self._config_dict[k]` (possible `KeyError k`), then the
`'prior_function'` item (possible `KeyError`), then the argument
`theta[start:stop]` — and `stop` is bound nowhere in the method (the tuple
was unpacked as `start, end`), so it raises
`NameError: name 'stop' is not defined` before the prior is ever called and
before `theta` is ever sliced. -/
def prior_product_loop (cfg : List (String × PD)) :
    List (String × Nat × Nat) → ℚ → Except PyErr ℚ
  | [], acc => .ok acc
  | (k, _, _) :: _, _ =>
    match dictLookup cfg k with
    | none => .error (.keyError k)
    | some pd =>
      match pd.prior_function with
      | none => .error (.keyError "prior_function")
      | some _ => .error (.nameError "stop")

/-- Source `prior_product(theta)`: `lnp_prior = 0`, loop over
`theta_index`, return the accumulator.  Note there is no length check of
`theta` anywhere in the method, and `theta` itself is never reached by the
(crashing) loop body, so the argument is unused. -/
def prior_product (i : Inst) (_theta : List ℚ) : Except PyErr ℚ :=
  prior_product_loop i.config_dict i.theta_index 0

/-- Source `rescale_parameter` helper: `[p['name'] for p in
self.config_list].index(par)` finds the first entry named `par`
(`ValueError` when absent, modelled as `none`), then `func` is applied to
that entry's `init` and to every value of its `prior_args`. -/
def rescale_plist (par : String) (func : ℚ → ℚ) : List PD → Option (List PD)
  | [] => none
  | p :: rest =>
    if p.name = par then
      let p' : PD :=
        { p with init := p.init.map func
                 prior_args := p.prior_args.map fun kv => (kv.1, func kv.2) }
      some (p' :: rest)
    else (rescale_plist par func rest).map fun l => p :: l

/-- Source `rescale_parameter(par, func)`. -/
def rescale_parameter (i : Inst) (par : String) (func : ℚ → ℚ) :
    Except PyErr Inst :=
  match rescale_plist par func i.config_list with
  | none => .error (.valueError par)
  | some cl => .ok { i with config_list := cl }

/-- Sum of a numpy boolean mask: the number of `True` entries. -/
def countTrue (mask : List Bool) : Nat := mask.countP fun b => b

/-- Source `add_obs(obs)`.  External numeric routines are passed in:
`normf` models `bsfh.datautils.norm_spectrum`, `logifyf` models
`bsfh.datautils.logify_data`, `nplog` models `np.log` (all external to this
file per the spec).  Control flow follows the source exactly:

* `self._add_obs(obs, **self.run_params)` stores `obs`;
* `self.ndof = -self.ndim`; `spec`/`phot` test the fields for `None`;
* spectrum present and `normalize_spectrum`: the call
  `norm_spectrum(self.obs, **kwargs)` reads the name `kwargs`, which is not
  a parameter of `add_obs`, and raises `NameError: name 'kwargs' is not
  defined` before `normalization_guess`/`pivot_wave` are stored and before
  any rescale;
* spectrum present, no normalization, `logify_spectrum`: `logify_data` is
  applied, the obs fields are replaced, and `spec_norm` is rescaled with
  `np.log`; execution then reaches the photometry section, whose both
  branches read the unbound name `model` (`model.ndof` / `model.obs`) and
  raise `NameError`;
* no spectrum: the `else` branch reads the unbound name `model`
  (`model.obs['unc'] = None`) and raises `NameError`.

No path ever reaches the final `self.configure()` call, and `norm_spectrum`
itself is never invoked (the `kwargs` lookup raises first), so `_normf` is
unused. -/
def add_obs (_normf : Obs → ℚ × ℚ)
    (logifyf : Option (List ℚ) → Option (List ℚ) → List Bool →
      Option (List ℚ) × Option (List ℚ) × List Bool)
    (nplog : ℚ → ℚ) (i : Inst) (w : PyWorld) (o : Obs) :
    (Inst × PyWorld) × Option PyErr :=
  let i1 : Inst := { i with obs := some o }
  let i2 : Inst := { i1 with ndof := -(i1.ndim : Int) }
  let spec := o.spectrum.isSome
  let logify := i2.run_params.logify_spectrum.getD true
  let norm := i2.run_params.normalize_spectrum.getD true
  if spec then
    let i3 : Inst := { i2 with ndof := i2.ndof + (countTrue o.mask : Int) }
    if norm then
      ((i3, w), some (.nameError "kwargs"))
    else if logify then
      let r := logifyf o.spectrum o.unc o.mask
      let o2 : Obs := { o with spectrum := r.1, unc := r.2.1, mask := r.2.2 }
      let i4 : Inst := { i3 with obs := some o2 }
      match rescale_parameter i4 "spec_norm" nplog with
      | .error e => ((i4, w), some e)
      | .ok i5 => ((i5, w), some (.nameError "model"))
    else ((i3, w), some (.nameError "model"))
  else ((i2, w), some (.nameError "model"))

end ProspectrParams

/-- The default `name_map` argument of `theta_labels`. -/
def name_map_default : List (String × String) :=
  [("amplitudes", "A"), ("emission_luminosity", "eline")]

/-- Loop of `theta_labels`: for each `theta_index` entry the source appends
to the parallel lists `label` and `index`, modelled as one list of
`(index, label)` pairs.  `nt = v[1] - v[0]`; the display name comes from
`name_map` with the parameter name as fallback (`except KeyError`); the
Python test `nt is 1` on small ints is numeric equality; multi-element
parameters get labels `name + '1', name + '2', ...` via
`format(i + 1)`. -/
def theta_labels_pairs (nm : List (String × String)) :
    List (String × Nat × Nat) → List (Nat × String)
  | [] => []
  | (p, s, e) :: rest =>
    let nt := e - s
    let name := (dictLookup nm p).getD p
    (if nt = 1 then [(s, name)]
     else (List.range nt).map fun j => (s + j, name ++ toString (j + 1))) ++
      theta_labels_pairs nm rest

/-- Comparison used by Python `sorted` on `(int, str)` pairs: lexicographic
order on the tuple. -/
def pairLeB (a b : Nat × String) : Bool :=
  decide (a.1 < b.1) || (decide (a.1 = b.1) && decide (a.2 ≤ b.2))

/-- Insertion step of the model of Python `sorted`. -/
def orderedIns (a : Nat × String) : List (Nat × String) → List (Nat × String)
  | [] => [a]
  | b :: l => if pairLeB a b then a :: b :: l else b :: orderedIns a l

/-- Model of Python `sorted` on `(int, str)` pairs (insertion sort;
stability is irrelevant here because the integer keys are distinct). -/
def pySort : List (Nat × String) → List (Nat × String)
  | [] => []
  | a :: l => orderedIns a (pySort l)

/-- Source `theta_labels(name_map)`: build the `(index, label)` pairs from
`theta_index`, sort them, and return the labels:
`[l for (i, l) in sorted(zip(index, label))]`. -/
def ProspectrParams.theta_labels (nm : List (String × String))
    (ti : List (String × Nat × Nat)) : List String :=
  (pySort (theta_labels_pairs nm ti)).map fun x => x.2

/-- Claim-side specification of the labels (C8, worded from the spec): one
block per free parameter in declaration order; a length-1 parameter
contributes its bare (override-mapped) name, a longer one contributes
`name + '1', ..., name + 'N'`. -/
def labels_spec (nm : List (String × String)) (mc : List PD) : List String :=
  (mc.filter fun p => p.isfree).flatMap fun p =>
    let name := (dictLookup nm p.name).getD p.name
    if p.N = 1 then [name]
    else (List.range p.N).map fun j => name ++ toString (j + 1)

/-- Claim-side helper for C7 (worded from the amended claim): the last
descriptor of the list carrying the given name, i.e. the survivor of
silent dict overwrite. -/
def lastNamed (name : String) : List PD → Option PD
  | [] => none
  | p :: rest =>
    match lastNamed name rest with
    | some q => some q
    | none => if p.name = name then some p else none

/-- Modelled from the spec: a callable from the external prior registry
`bsfh.priors` (or the attenuation registry `sedpy.attenuation`), neither of
which is under `src/`.  Per spec §6 the registry maps names to callables;
a callable carries its definition name (`func_name` in the source's
Python 2). -/
structure PFunc where
  func_name : String
deriving DecidableEq

/-- The `init` entry of a serialized descriptor: either numeric data or a
bound dust-curve callable. -/
inductive InitVal where
  | num (v : List ℚ)
  | fn (f : PFunc)
deriving DecidableEq

/-- A parameter descriptor as seen by the serialization bridge
(`functions_to_names` / `names_to_functions`): a dict with optional keys,
`none` modelling an absent key. -/
structure SPD where
  name : String
  init : Option InitVal
  prior_function : Option PFunc
  prior_function_name : Option String
  dust_curve_name : Option String
deriving DecidableEq

/-- Source `functions_to_names(p)`: if `p['prior_function']` is bound and
is one of the registry's values, store its `func_name` under
`'prior_function_name'`, otherwise pop that key; always pop
`'prior_function'`.  For a descriptor named `'dust_curve'` whose `init` is
a bound attenuation-registry callable, store `'dust_curve_name'` and pop
`'init'`. -/
def functions_to_names (priors attenuation : List (String × PFunc))
    (p : SPD) : SPD :=
  let p1 : SPD :=
    match p.prior_function with
    | some pf =>
      if pf ∈ priors.map Prod.snd then
        { p with prior_function_name := some pf.func_name }
      else { p with prior_function_name := none }
    | none => { p with prior_function_name := none }
  let p2 : SPD := { p1 with prior_function := none }
  if p2.name = "dust_curve" then
    match p2.init with
    | some (InitVal.fn df) =>
      if df ∈ attenuation.map Prod.snd then
        { p2 with dust_curve_name := some df.func_name, init := none }
      else p2
    | _ => p2
  else p2

/-- Source `names_to_functions(p)`: if `'dust_curve_name'` is present,
resolve it through the attenuation registry into `init`
(`KeyError` when unknown); if `'prior_function_name'` is present, resolve
it through the prior registry into `prior_function` (`KeyError` when
unknown), else `p['prior_function'] = p.get('prior_function', None)`. -/
def names_to_functions (priors attenuation : List (String × PFunc))
    (p : SPD) : Except PyErr SPD :=
  let step1 : Except PyErr SPD :=
    match p.dust_curve_name with
    | some n =>
      match dictLookup attenuation n with
      | some f => .ok { p with init := some (InitVal.fn f) }
      | none => .error (.keyError n)
    | none => .ok p
  match step1 with
  | .error e => .error e
  | .ok q =>
    match q.prior_function_name with
    | some n =>
      match dictLookup priors n with
      | some f => .ok { q with prior_function := some f }
      | none => .error (.keyError n)
    | none => .ok { q with prior_function := q.prior_function }

/-- Descriptor transform performed by `write_plist` before dumping: the
loop `for p in plist: p = functions_to_names(p)` mutates each descriptor
dict in place, so the dumped list is the transformed one.  The JSON dump /
load pair is the identity on the resulting function-free descriptors. -/
def write_plist_descriptors (priors attenuation : List (String × PFunc))
    (plist : List SPD) : List SPD :=
  plist.map (functions_to_names priors attenuation)

/-- Descriptor transform performed by `read_plist` after loading: the loop
`for p in modelpars: p = names_to_functions(p)` mutates each descriptor in
place. -/
def read_plist_descriptors (priors attenuation : List (String × PFunc))
    (plist : List SPD) : Except PyErr (List SPD) :=
  plist.mapM (names_to_functions priors attenuation)

/-! Helper lemmas about the dict model. -/

lemma dictLookup_insert {α : Type} (d : List (String × α)) (k : String)
    (v : α) (name : String) :
    dictLookup (dictInsert d k v) name =
      if name = k then some v else dictLookup d name := by
  induction d with
  | nil =>
    by_cases h : name = k
    · subst h; simp [dictInsert, dictLookup]
    · simp [dictInsert, dictLookup, h, Ne.symm h]
  | cons hd rest ih =>
    obtain ⟨k', v'⟩ := hd
    by_cases hk : k' = k
    · subst hk
      by_cases hn : name = k'
      · subst hn; simp [dictInsert, dictLookup]
      · simp [dictInsert, dictLookup, hn, Ne.symm hn]
    · by_cases hn : name = k
      · subst hn; simp [dictInsert, dictLookup, hk, ih]
      · simp [dictInsert, dictLookup, hk, hn, ih]

lemma dictLookup_eq_none {α : Type} (d : List (String × α)) (name : String)
    (h : name ∉ d.map Prod.fst) : dictLookup d name = none := by
  induction d with
  | nil => rfl
  | cons hd rest ih =>
    obtain ⟨k', v'⟩ := hd
    simp only [List.map_cons, List.mem_cons] at h
    push_neg at h
    simp [dictLookup, Ne.symm h.1, ih h.2]

lemma dictInsert_not_mem {α : Type} (d : List (String × α)) (k : String)
    (v : α) (h : k ∉ d.map Prod.fst) : dictInsert d k v = d ++ [(k, v)] := by
  induction d with
  | nil => rfl
  | cons hd rest ih =>
    obtain ⟨k', v'⟩ := hd
    simp only [List.map_cons, List.mem_cons] at h
    push_neg at h
    simp [dictInsert, Ne.symm h.1, ih h.2]

lemma dictInsert_mem_keys {α : Type} (d : List (String × α)) (k : String)
    (v : α) (a : String) :
    a ∈ (dictInsert d k v).map Prod.fst ↔ a ∈ d.map Prod.fst ∨ a = k := by
  induction d with
  | nil => simp [dictInsert]
  | cons hd rest ih =>
    obtain ⟨k', v'⟩ := hd
    by_cases hk : k' = k
    · subst hk; simp [dictInsert]; tauto
    · simp [dictInsert, hk, ih]; tauto

lemma dictInsert_keys_nodup {α : Type} (d : List (String × α)) (k : String)
    (v : α) (h : (d.map Prod.fst).Nodup) :
    ((dictInsert d k v).map Prod.fst).Nodup := by
  induction d with
  | nil => simp [dictInsert]
  | cons hd rest ih =>
    obtain ⟨k', v'⟩ := hd
    simp only [List.map_cons, List.nodup_cons] at h
    by_cases hk : k' = k
    · subst hk; simp [dictInsert, List.nodup_cons, h.1, h.2]
    · have h1 : k' ∉ (dictInsert rest k v).map Prod.fst := by
        rw [dictInsert_mem_keys]
        rintro (hm | he)
        · exact h.1 hm
        · exact hk he
      simp [dictInsert, hk, List.nodup_cons, h1, ih h.2]

lemma plist_to_pdict_keys_nodup (l : List PD) :
    ((plist_to_pdict l).map Prod.fst).Nodup := by
  have main : ∀ (l : List PD) (d : List (String × PD)),
      (d.map Prod.fst).Nodup →
      ((l.foldl (fun pdict p => dictInsert pdict p.name p) d).map Prod.fst).Nodup := by
    intro l
    induction l with
    | nil => intro d hd; simpa using hd
    | cons p rest ih =>
      intro d hd
      exact ih _ (dictInsert_keys_nodup d p.name p hd)
  exact main l [] (by simp)

lemma lastNamed_eq_none (name : String) (l : List PD)
    (h : name ∉ l.map PD.name) : lastNamed name l = none := by
  induction l with
  | nil => rfl
  | cons p rest ih =>
    simp only [List.map_cons, List.mem_cons] at h
    push_neg at h
    simp [lastNamed, ih h.2, Ne.symm h.1]

lemma lastNamed_of_nodup (mc : List PD) (p : PD) (hp : p ∈ mc)
    (hnd : (mc.map PD.name).Nodup) : lastNamed p.name mc = some p := by
  induction mc with
  | nil => cases hp
  | cons q rest ih =>
    simp only [List.map_cons, List.nodup_cons] at hnd
    rcases List.mem_cons.mp hp with he | hm
    · subst he
      simp [lastNamed, lastNamed_eq_none p.name rest hnd.1]
    · simp [lastNamed, ih hm hnd.2]

lemma dictLookup_plist_fold (l : List PD) (d : List (String × PD))
    (name : String) :
    dictLookup (l.foldl (fun pdict p => dictInsert pdict p.name p) d) name =
      match lastNamed name l with
      | some p => some p
      | none => dictLookup d name := by
  induction l generalizing d with
  | nil => simp [lastNamed]
  | cons p rest ih =>
    rw [List.foldl_cons, ih]
    cases hrest : lastNamed name rest with
    | some q => simp [lastNamed, hrest]
    | none =>
      simp only [lastNamed, hrest]
      by_cases hn : p.name = name
      · simp [hn, dictLookup_insert]
      · have hn' : ¬ name = p.name := fun e => hn e.symm
        simp [hn, hn', dictLookup_insert]

lemma dictLookup_plist_to_pdict (l : List PD) (name : String) :
    dictLookup (plist_to_pdict l) name = lastNamed name l := by
  rw [plist_to_pdict, dictLookup_plist_fold]
  cases lastNamed name l <;> rfl

lemma dictLookup_plist_to_pdict_self (mc : List PD) (p : PD) (hp : p ∈ mc)
    (hnd : (mc.map PD.name).Nodup) :
    dictLookup (plist_to_pdict mc) p.name = some p := by
  rw [dictLookup_plist_to_pdict, lastNamed_of_nodup mc p hp hnd]

/-! Helper lemmas about `map_theta`. -/

/-- Proof-side description of the theta index built by `map_theta` from a
duplicate-free free-parameter list: consecutive blocks starting at a
running counter. -/
def buildIdx : List PD → Nat → List (String × Nat × Nat)
  | [], _ => []
  | p :: rest, c => (p.name, c, c + p.N) :: buildIdx rest (c + p.N)

lemma map_theta_loop_eq (cfg : List (String × PD)) (fl : List PD)
    (ti : List (String × Nat × Nat)) (c : Nat)
    (hlk : ∀ p ∈ fl, dictLookup cfg p.name = some p)
    (hnd : (fl.map PD.name).Nodup)
    (hdisj : ∀ p ∈ fl, p.name ∉ ti.map Prod.fst) :
    ProspectrParams.map_theta_loop cfg (fl.map PD.name) ti c =
      .ok (ti ++ buildIdx fl c, c + (fl.map PD.N).sum) := by
  induction fl generalizing ti c with
  | nil => simp [ProspectrParams.map_theta_loop, buildIdx]
  | cons p rest ih =>
    simp only [List.map_cons, List.nodup_cons] at hnd
    have hstep : ProspectrParams.map_theta_loop cfg (p.name :: rest.map PD.name) ti c =
        ProspectrParams.map_theta_loop cfg (rest.map PD.name)
          (dictInsert ti p.name (c, c + p.N)) (c + p.N) := by
      simp [ProspectrParams.map_theta_loop, hlk p (by simp)]
    rw [List.map_cons, hstep,
        dictInsert_not_mem ti p.name (c, c + p.N) (hdisj p (by simp))]
    have hdisj' : ∀ q ∈ rest,
        q.name ∉ (ti ++ [(p.name, c, c + p.N)]).map Prod.fst := by
      intro q hq
      simp only [List.map_append, List.mem_append, List.map_cons, List.map_nil,
        List.mem_cons, List.not_mem_nil]
      rintro (hm | hm)
      · exact hdisj q (List.mem_cons_of_mem p hq) hm
      · rcases hm with hm | hm
        · exact hnd.1 (hm ▸ List.mem_map_of_mem PD.name hq)
        · exact hm
    rw [ih _ _ (fun q hq => hlk q (List.mem_cons_of_mem p hq)) hnd.2 hdisj']
    simp [buildIdx, Nat.add_assoc]

lemma map_theta_free_eq (mc : List PD) (hnd : (mc.map PD.name).Nodup) :
    ProspectrParams.map_theta (plist_to_pdict mc) (free_params_of mc) =
      .ok (buildIdx (mc.filter fun p => p.isfree) 0,
        ((mc.filter fun p => p.isfree).map PD.N).sum) := by
  have hfl : free_params_of mc = (mc.filter fun p => p.isfree).map PD.name := rfl
  have hnd' : ((mc.filter fun p => p.isfree).map PD.name).Nodup :=
    ((List.filter_sublist mc).map PD.name).nodup hnd
  rw [ProspectrParams.map_theta, hfl,
    map_theta_loop_eq (plist_to_pdict mc) _ [] 0
      (fun p hp =>
        dictLookup_plist_to_pdict_self mc p (List.mem_of_mem_filter hp) hnd)
      hnd' (by simp)]
  simp

lemma buildIdx_map_fst (fl : List PD) (c : Nat) :
    (buildIdx fl c).map Prod.fst = fl.map PD.name := by
  induction fl generalizing c with
  | nil => rfl
  | cons p rest ih => simp [buildIdx, ih]

lemma buildIdx_mem (fl : List PD) (c : Nat) :
    ∀ e ∈ buildIdx fl c, ∃ p ∈ fl, e.1 = p.name ∧ e.2.1 ≤ e.2.2 ∧
      e.2.2 - e.2.1 = p.N ∧ c ≤ e.2.1 ∧ e.2.2 ≤ c + (fl.map PD.N).sum := by
  induction fl generalizing c with
  | nil => intro e he; cases he
  | cons p rest ih =>
    intro e he
    rcases List.mem_cons.mp he with he | he
    · subst he
      exact ⟨p, by simp, rfl, by simp, by simp [Nat.add_sub_cancel_left], le_refl c,
        by simp [Nat.add_assoc]⟩
    · obtain ⟨q, hq, h1, h2, h3, h4, h5⟩ := ih (c + p.N) e he
      exact ⟨q, by simp [hq], h1, h2, h3, by omega, by simp at h5 ⊢; omega⟩

lemma range_one_append (s m n : Nat) :
    List.range' s m ++ List.range' (s + m) n = List.range' s (m + n) := by
  have h := List.range'_append s m n 1
  rw [Nat.one_mul] at h
  rw [Nat.add_comm m n]
  exact h

lemma buildIdx_ranges (fl : List PD) (c : Nat) :
    (buildIdx fl c).flatMap (fun e => List.range' e.2.1 (e.2.2 - e.2.1)) =
      List.range' c ((fl.map PD.N).sum) := by
  induction fl generalizing c with
  | nil => rfl
  | cons p rest ih =>
    simp only [buildIdx, List.flatMap_cons, ih (c + p.N)]
    rw [Nat.add_sub_cancel_left]
    rw [range_one_append c p.N ((rest.map PD.N).sum)]
    simp

lemma dictLookup_config_fold (l : List (String × PD))
    (ps : List (String × List ℚ)) (name : String)
    (h : (l.map Prod.fst).Nodup) :
    dictLookup (l.foldl (fun ps kv => dictInsert ps kv.1 (atleast_1d kv.2.init)) ps) name =
      match dictLookup l name with
      | some pd => some (atleast_1d pd.init)
      | none => dictLookup ps name := by
  induction l generalizing ps with
  | nil => simp [dictLookup]
  | cons kv rest ih =>
    obtain ⟨k, pd⟩ := kv
    simp only [List.map_cons, List.nodup_cons] at h
    rw [List.foldl_cons, ih _ h.2]
    by_cases hn : name = k
    · subst hn
      rw [dictLookup_eq_none rest name h.1]
      simp [dictLookup, dictLookup_insert]
    · cases hrest : dictLookup rest name with
      | none => simp [dictLookup, Ne.symm hn, hn, hrest, dictLookup_insert]
      | some pd' => simp [dictLookup, Ne.symm hn, hrest]

/-! Helper lemmas about `theta_labels`. -/

lemma pairs_snd (nm : List (String × String)) (fl : List PD) (c : Nat) :
    (theta_labels_pairs nm (buildIdx fl c)).map Prod.snd =
      fl.flatMap fun p =>
        let name := (dictLookup nm p.name).getD p.name
        if p.N = 1 then [name]
        else (List.range p.N).map fun j => name ++ toString (j + 1) := by
  induction fl generalizing c with
  | nil => rfl
  | cons p rest ih =>
    simp only [buildIdx, theta_labels_pairs, List.flatMap_cons, List.map_append,
      ih (c + p.N), Nat.add_sub_cancel_left]
    congr 1
    by_cases h1 : p.N = 1
    · simp [h1]
    · rw [if_neg h1, if_neg h1, List.map_map]
      rfl

lemma pairs_length (nm : List (String × String)) (fl : List PD) (c : Nat) :
    (theta_labels_pairs nm (buildIdx fl c)).length = (fl.map PD.N).sum := by
  induction fl generalizing c with
  | nil => rfl
  | cons p rest ih =>
    simp only [buildIdx, theta_labels_pairs, List.length_append, ih (c + p.N),
      Nat.add_sub_cancel_left, List.map_cons, List.sum_cons]
    by_cases h1 : p.N = 1
    · simp [h1]
    · simp [h1]

lemma pairs_fst_bounds (nm : List (String × String)) (fl : List PD) (c : Nat) :
    ∀ pr ∈ theta_labels_pairs nm (buildIdx fl c),
      c ≤ pr.1 ∧ pr.1 < c + (fl.map PD.N).sum := by
  induction fl generalizing c with
  | nil => intro pr h; cases h
  | cons p rest ih =>
    intro pr h
    have hsum : ((p :: rest).map PD.N).sum = p.N + (rest.map PD.N).sum := by
      simp
    simp only [buildIdx, theta_labels_pairs, List.mem_append,
      Nat.add_sub_cancel_left] at h
    rcases h with h | h
    · by_cases h1 : p.N = 1
      · rw [if_pos h1] at h
        simp only [List.mem_cons, List.not_mem_nil, or_false] at h
        subst h
        refine ⟨le_refl c, ?_⟩
        rw [hsum]
        omega
      · rw [if_neg h1] at h
        obtain ⟨j, hj, rfl⟩ := List.mem_map.mp h
        simp only [List.mem_range] at hj
        refine ⟨by omega, ?_⟩
        rw [hsum]
        omega
    · obtain ⟨h1, h2⟩ := ih (c + p.N) pr h
      rw [hsum]
      omega

lemma pairs_pairwise (nm : List (String × String)) (fl : List PD) (c : Nat) :
    (theta_labels_pairs nm (buildIdx fl c)).Pairwise fun a b => a.1 < b.1 := by
  induction fl generalizing c with
  | nil => simp [buildIdx, theta_labels_pairs]
  | cons p rest ih =>
    simp only [buildIdx, theta_labels_pairs, Nat.add_sub_cancel_left]
    rw [List.pairwise_append]
    refine ⟨?_, ih (c + p.N), ?_⟩
    · by_cases h1 : p.N = 1
      · simp [h1]
      · rw [if_neg h1, List.pairwise_map]
        exact (List.pairwise_lt_range p.N).imp fun hab => by omega
    · intro a ha b hb
      have hb' := (pairs_fst_bounds nm rest (c + p.N) b hb).1
      by_cases h1 : p.N = 1
      · rw [if_pos h1] at ha
        simp only [List.mem_cons, List.not_mem_nil, or_false] at ha
        subst ha
        simp only []
        omega
      · rw [if_neg h1] at ha
        obtain ⟨j, hj, rfl⟩ := List.mem_map.mp ha
        simp only [List.mem_range] at hj
        simp only []
        omega

lemma orderedIns_of_forall (a : Nat × String) (l : List (Nat × String))
    (h : ∀ b ∈ l, pairLeB a b = true) : orderedIns a l = a :: l := by
  cases l with
  | nil => rfl
  | cons b l => rw [orderedIns, if_pos (h b (by simp))]

lemma pySort_of_pairwise (l : List (Nat × String))
    (h : l.Pairwise fun a b => a.1 < b.1) : pySort l = l := by
  induction l with
  | nil => rfl
  | cons a l ih =>
    rw [List.pairwise_cons] at h
    rw [pySort, ih h.2, orderedIns_of_forall]
    intro b hb
    have hab := h.1 b hb
    simp [pairLeB, hab]

/-! Concrete fixtures used by witnesses and counterexamples. -/

/-- An empty run-parameter dict. -/
def rp0 : RunParams := ⟨none, none⟩

/-- A free scalar parameter. -/
def pd_mass : PD := ⟨"mass", 1, true, [10], [("mini", 1), ("maxi", 100)], some "tophat"⟩

/-- A free length-2 parameter. -/
def pd_zred : PD := ⟨"zred", 2, true, [1, 2], [], some "tophat"⟩

/-- A free length-2 parameter whose name is remapped by the default
`name_map`. -/
def pd_amp : PD := ⟨"amplitudes", 2, true, [0, 0], [], some "tophat"⟩

/-- A fixed scalar parameter. -/
def pd_tage : PD := ⟨"tage", 1, false, [5], [], none⟩

/-- Two descriptors sharing the name `x` with different init values. -/
def pdX1 : PD := ⟨"x", 1, false, [1], [], none⟩

/-- Second descriptor named `x`. -/
def pdX2 : PD := ⟨"x", 1, false, [2], [], none⟩

/-- A config with two free and one fixed parameter. -/
def mc2 : List PD := [pd_zred, pd_mass, pd_tage]

/-- The theta index that `map_theta` builds for `mc2`. -/
def ti2 : List (String × Nat × Nat) := [("zred", 0, 2), ("mass", 2, 3)]

/-- A config whose first free parameter gets a remapped label. -/
def mc_amp : List PD := [pd_amp, pd_mass, pd_tage]

/-- The theta index that `map_theta` builds for `mc_amp`. -/
def ti_amp : List (String × Nat × Nat) := [("amplitudes", 0, 2), ("mass", 2, 3)]

/-- A configured instance with no parameters at all. -/
def inst_empty : Inst := ⟨rp0, [], [], [], 0, [], none, 0⟩

/-- A configured instance with the single free parameter `mass`. -/
def inst_mass : Inst :=
  ⟨rp0, [pd_mass], plist_to_pdict [pd_mass], [("mass", 0, 1)], 1, [10], none, 0⟩

/-- A world whose shared params dict holds `mass`. -/
def w_mass : PyWorld := ⟨[("mass", [10])]⟩

/-- A world with entries written by an earlier instance. -/
def wXY : PyWorld := ⟨[("x", [1]), ("y", [9])]⟩

/-- An observation carrying a spectrum. -/
def obs_spec : Obs := ⟨some [1, 2], some [1, 1], [true, true], none, []⟩

/-- A prior-registry callable named `tophat`. -/
def pf_tophat : PFunc := ⟨"tophat"⟩

/-- A one-entry prior registry binding `tophat` under its own name. -/
def priors1 : List (String × PFunc) := [("tophat", pf_tophat)]

/-- A serializable descriptor bound to the `tophat` prior callable. -/
def spd1 : SPD := ⟨"mass", some (InitVal.num [10]), some pf_tophat, none, none⟩

deriving instance DecidableEq for Except

/-- Probe for the class-attribute aliasing of `params`: construct instance
A with `x = [1]` on an empty shared dict, then instance B with `x = [2]`
on the dict A left behind, and report the value of `x` in the shared dict
after each construction. -/
def sharedProbe : Except PyErr (Option (List ℚ) × Option (List ℚ)) := do
  let ra ← ProspectrParams.init rp0 [pdX1] ⟨[]⟩
  let rb ← ProspectrParams.init rp0 [pdX2] ra.2
  pure (dictLookup ra.2.params "x", dictLookup rb.2.params "x")

/-! Claim theorems. -/

/-- C1 (code bug): the claimed scatter/assemble round-trip cannot hold
because `set_parameters` crashes on every model with at least one free
parameter: its loop body assigns `self.params[p]`, but the loop binds `k`,
so the unbound name `p` raises `NameError` before any write; the shared
`params` dict is returned unchanged. -/
theorem set_parameters_unbound_name (i : Inst) (w : PyWorld) (t : List ℚ)
    (hne : i.theta_index ≠ []) (hlen : t.length = i.ndim) :
    ProspectrParams.set_parameters i w t = (w, some (PyErr.nameError "p")) := by
  rw [ProspectrParams.set_parameters, if_pos hlen]
  cases h : i.theta_index with
  | nil => exact absurd h hne
  | cons a l => rfl

/-- Witness for C1's theorem at a configured one-parameter model and a
well-sized theta vector. -/
theorem set_parameters_unbound_name_witness :
    ProspectrParams.set_parameters inst_mass w_mass [3] =
      (w_mass, some (PyErr.nameError "p")) :=
  set_parameters_unbound_name inst_mass w_mass [3] (by decide) (by decide)

/-- C2: for a duplicate-free descriptor list, `map_theta` produces ranges
whose widths are the parameters' lengths and whose concatenation, in
index order, is exactly `[0, ndim)` (hence contiguous, non-overlapping,
gap-free), with `ndim` the sum of the free parameters' lengths. -/
theorem map_theta_index_coverage (mc : List PD)
    (hnd : (mc.map PD.name).Nodup)
    (ti : List (String × Nat × Nat)) (n : Nat)
    (h : ProspectrParams.map_theta (plist_to_pdict mc) (free_params_of mc) =
      .ok (ti, n)) :
    n = ((mc.filter fun p => p.isfree).map PD.N).sum ∧
    ti.map Prod.fst = free_params_of mc ∧
    (∀ e ∈ ti, ∀ pd, dictLookup (plist_to_pdict mc) e.1 = some pd →
      e.2.2 - e.2.1 = pd.N) ∧
    ti.flatMap (fun e => List.range' e.2.1 (e.2.2 - e.2.1)) = List.range n := by
  rw [map_theta_free_eq mc hnd] at h
  simp only [Except.ok.injEq, Prod.mk.injEq] at h
  obtain ⟨hti, hn⟩ := h
  subst hti
  subst hn
  refine ⟨rfl, buildIdx_map_fst _ 0, ?_, ?_⟩
  · intro e he pd hpd
    obtain ⟨p, hp, h1, _h2, h3, _h4, _h5⟩ := buildIdx_mem _ 0 e he
    have hp' : p ∈ mc := List.mem_of_mem_filter hp
    have hlk := dictLookup_plist_to_pdict_self mc p hp' hnd
    rw [h1, hlk] at hpd
    injection hpd with hpd
    rw [h3, hpd]
  · rw [buildIdx_ranges, ← List.range_eq_range']

/-- Witness for C2's theorem at a three-descriptor config (free lengths 2
and 1, one fixed parameter). -/
theorem map_theta_index_coverage_witness :
    (3 = ((mc2.filter fun p => p.isfree).map PD.N).sum ∧
     ti2.map Prod.fst = free_params_of mc2 ∧
     (∀ e ∈ ti2, ∀ pd, dictLookup (plist_to_pdict mc2) e.1 = some pd →
       e.2.2 - e.2.1 = pd.N) ∧
     ti2.flatMap (fun e => List.range' e.2.1 (e.2.2 - e.2.1)) = List.range 3) :=
  map_theta_index_coverage mc2 (by decide) ti2 3 (by decide)

/-- C3: `set_parameters` never changes the stored value of a fixed
(non-theta-indexed) parameter: the shared `params` dict that comes back is
the one that went in, for every theta input (indeed the method crashes on
the unbound name `p` before any write, or does nothing when there are no
free parameters). -/
theorem set_parameters_fixed_invariant (i : Inst) (w : PyWorld) (t : List ℚ)
    (name : String) (hfixed : dictLookup i.theta_index name = none) :
    dictLookup (ProspectrParams.set_parameters i w t).1.params name =
      dictLookup w.params name := by
  rw [ProspectrParams.set_parameters]
  by_cases hlen : t.length = i.ndim
  · rw [if_pos hlen]
    cases i.theta_index <;> rfl
  · rw [if_neg hlen]

/-- Witness for C3's theorem: the fixed parameter `tage` on the
one-free-parameter model. -/
theorem set_parameters_fixed_invariant_witness :
    dictLookup (ProspectrParams.set_parameters inst_mass w_mass [3]).1.params
      "tage" = dictLookup w_mass.params "tage" :=
  set_parameters_fixed_invariant inst_mass w_mass [3] "tage" (by decide)

/-- C4 counterexample: on a configured model with no free parameters
(`ndim = 0`), `prior_product` applied to a theta of mismatched length 3
returns the scalar `0` with no error at all — there is no dimension check,
contradicting the claimed `DimensionMismatchError`. -/
theorem prior_product_no_dimension_check_cex :
    inst_empty.ndim = 0 ∧
    ProspectrParams.prior_product inst_empty [0, 0, 0] = .ok 0 :=
  ⟨rfl, rfl⟩

/-- C4 amended: `prior_product` performs no dimension validation at all —
its outcome is independent of the theta argument (the loop body raises
`NameError` on the unbound name `stop` before `theta` is ever sliced), and
with no free parameters it returns `0` for a theta of any length. -/
theorem prior_product_ignores_theta (i : Inst) (t1 t2 : List ℚ) :
    ProspectrParams.prior_product i t1 = ProspectrParams.prior_product i t2 ∧
    (i.theta_index = [] → ProspectrParams.prior_product i t1 = .ok 0) := by
  refine ⟨rfl, fun h => ?_⟩
  simp only [ProspectrParams.prior_product, h]
  rfl

/-- Witness for C4's amended theorem at the empty model and two thetas of
different lengths. -/
theorem prior_product_ignores_theta_witness :
    ProspectrParams.prior_product inst_empty [] =
      ProspectrParams.prior_product inst_empty [0, 0] ∧
    ProspectrParams.prior_product inst_empty [] = .ok 0 :=
  ⟨(prior_product_ignores_theta inst_empty [] [0, 0]).1,
   (prior_product_ignores_theta inst_empty [] [0, 0]).2 rfl⟩

/-- C5 (code bug): whenever the observation has a spectrum and
`normalize_spectrum` is enabled, `add_obs` raises
`NameError: name 'kwargs' is not defined` at the `norm_spectrum` call —
before `normalization_guess` and `pivot_wave` are stored (the shared
`params` dict comes back unchanged) and before any rescale of `spec_norm`
(the instance keeps its `config_list`; only `obs` and `ndof` were already
mutated). -/
theorem add_obs_normalization_name_error
    (nf : Obs → ℚ × ℚ)
    (lf : Option (List ℚ) → Option (List ℚ) → List Bool →
      Option (List ℚ) × Option (List ℚ) × List Bool)
    (lg : ℚ → ℚ) (i : Inst) (w : PyWorld) (o : Obs)
    (hspec : o.spectrum.isSome = true)
    (hnorm : i.run_params.normalize_spectrum.getD true = true) :
    ProspectrParams.add_obs nf lf lg i w o =
      (({ i with obs := some o,
                 ndof := -(i.ndim : Int) +
                   (ProspectrParams.countTrue o.mask : Int) }, w),
        some (PyErr.nameError "kwargs")) := by
  rw [ProspectrParams.add_obs]
  simp only [hspec, hnorm, if_true]

/-- Witness for C5's theorem: an observation with a spectrum on the
one-parameter model with default run parameters. -/
theorem add_obs_normalization_name_error_witness :
    ProspectrParams.add_obs (fun _ => (1, 1)) (fun s u m => (s, u, m))
      (fun x => x) inst_mass w_mass obs_spec =
      (({ inst_mass with obs := some obs_spec, ndof := 1 }, w_mass),
        some (PyErr.nameError "kwargs")) := by
  rw [add_obs_normalization_name_error (fun _ => (1, 1))
    (fun s u m => (s, u, m)) (fun x => x) inst_mass w_mass obs_spec rfl rfl]
  rfl

/-- C6: construction via `__init__` always yields a model with empty
`free_params` and `fixed_params`, `ndim = 0`, an empty `theta_index`, and
a length-0 `theta` vector, for every `run_params` and `config_list`: the
properties read the class attribute `model_config`, which `configure`
never assigns. -/
theorem construct_free_params_empty (rp : RunParams) (cl : List PD)
    (w : PyWorld) :
    ∃ i w', ProspectrParams.init rp cl w = .ok (i, w') ∧
      ProspectrParams.free_params i = [] ∧
      ProspectrParams.fixed_params i = [] ∧
      i.ndim = 0 ∧ i.theta_index = [] ∧
      ProspectrParams.theta i w' = .ok [] :=
  ⟨_, _, rfl, rfl, rfl, rfl, rfl, rfl⟩

/-- C7 counterexample: two descriptors named `x`: `plist_to_pdict` raises
nothing and silently keeps only the later descriptor. -/
theorem plist_to_pdict_duplicate_overwrite_cex :
    plist_to_pdict [pdX1, pdX2] = [("x", pdX2)] ∧ pdX1 ≠ pdX2 := by
  constructor <;> decide

/-- C7 amended: `plist_to_pdict` never fails; for every name the resulting
registry holds the last descriptor of the input list with that name
(later duplicates silently overwrite earlier ones). -/
theorem plist_to_pdict_last_wins (l : List PD) (name : String) :
    dictLookup (plist_to_pdict l) name = lastNamed name l :=
  dictLookup_plist_to_pdict l name

/-- C8: for a duplicate-free descriptor list, `theta_labels` returns the
blocks of the free parameters in theta-index order: one bare
(override-mapped) name for a length-1 parameter, and
`name + '1', ..., name + 'N'` (1-based) for a longer one — in total one
label per scalar index `0..ndim-1`. -/
theorem theta_labels_ordered (mc : List PD) (nm : List (String × String))
    (hnd : (mc.map PD.name).Nodup)
    (ti : List (String × Nat × Nat)) (n : Nat)
    (h : ProspectrParams.map_theta (plist_to_pdict mc) (free_params_of mc) =
      .ok (ti, n)) :
    ProspectrParams.theta_labels nm ti = labels_spec nm mc ∧
    (ProspectrParams.theta_labels nm ti).length = n := by
  rw [map_theta_free_eq mc hnd] at h
  simp only [Except.ok.injEq, Prod.mk.injEq] at h
  obtain ⟨hti, hn⟩ := h
  subst hti
  subst hn
  have hsort :=
    pySort_of_pairwise _ (pairs_pairwise nm (mc.filter fun p => p.isfree) 0)
  constructor
  · rw [ProspectrParams.theta_labels, hsort, pairs_snd]
    rfl
  · rw [ProspectrParams.theta_labels, hsort, List.length_map, pairs_length]

/-- Witness for C8's theorem: `amplitudes` (length 2, mapped to `A`) and
`mass` (length 1) give labels `A1, A2, mass` in index order. -/
theorem theta_labels_ordered_witness :
    ProspectrParams.theta_labels name_map_default ti_amp = ["A1", "A2", "mass"] ∧
    (ProspectrParams.theta_labels name_map_default ti_amp).length = 3 :=
  ⟨(theta_labels_ordered mc_amp name_map_default (by decide) ti_amp 3
      (by decide)).1.trans (by decide),
   (theta_labels_ordered mc_amp name_map_default (by decide) ti_amp 3
      (by decide)).2⟩

/-- C9: writing a descriptor whose `prior_function` is a callable bound in
the prior registry and reading it back restores the identical callable:
`functions_to_names` stores the callable's `func_name` and pops the
callable; `names_to_functions` resolves that name through the registry.
The registry-coherence hypothesis says the registry maps each stored
callable's definition name back to that very callable. -/
theorem serialization_roundtrip_prior
    (priors attenuation : List (String × PFunc)) (p : SPD) (f : PFunc)
    (hpf : p.prior_function = some f)
    (hmem : f ∈ priors.map Prod.snd)
    (hcoh : dictLookup priors f.func_name = some f)
    (hdust : p.dust_curve_name = none)
    (hname : p.name ≠ "dust_curve") :
    names_to_functions priors attenuation
        (functions_to_names priors attenuation p) =
      .ok { p with prior_function_name := some f.func_name,
                   prior_function := some f } := by
  rw [functions_to_names]
  simp only [hpf, if_pos hmem]
  rw [if_neg hname]
  rw [names_to_functions]
  simp only [hdust, hcoh]

/-- Witness for C9's theorem: a concrete registry holding `tophat` and a
descriptor bound to it. -/
theorem serialization_roundtrip_prior_witness :
    names_to_functions priors1 [] (functions_to_names priors1 [] spd1) =
      .ok { spd1 with prior_function_name := some "tophat",
                      prior_function := some pf_tophat } :=
  serialization_roundtrip_prior priors1 [] spd1 pf_tophat rfl (by decide)
    (by decide) rfl (by decide)

/-- C10 counterexample: the `params` state dict is a class attribute
mutated in place, hence shared: constructing instance A (`x = [1]`) on an
empty shared dict and then instance B (`x = [2]`) on the dict A left
behind flips the value A observes for `x` from `[1]` to `[2]` — B's
`configure` changed A's observable parameter state. -/
theorem instances_share_params_cex :
    sharedProbe = .ok (some [1], some [2]) ∧
    some [(1 : ℚ)] ≠ some [(2 : ℚ)] := by
  constructor <;> decide

/-- C10 amended: `theta_index` and `_config_dict` are rebound per instance
and stay independent, but the `params` dict is class-level and shared:
constructing/configuring an instance overwrites, in the shared dict, the
entry of every name of its own config with that descriptor's init value,
and leaves every other entry — including those written by other
instances — exactly as it was. -/
theorem configure_overwrites_shared_params (rp : RunParams) (cl : List PD)
    (w : PyWorld) (i : Inst) (w' : PyWorld)
    (hmk : ProspectrParams.init rp cl w = .ok (i, w')) (name : String) :
    dictLookup w'.params name =
      match dictLookup (plist_to_pdict cl) name with
      | some pd => some (atleast_1d pd.init)
      | none => dictLookup w.params name := by
  have hrun : ProspectrParams.init rp cl w =
      .ok (⟨rp, cl, plist_to_pdict cl, [], 0, [], none, 0⟩,
        ⟨(plist_to_pdict cl).foldl
          (fun ps kv => dictInsert ps kv.1 (atleast_1d kv.2.init)) w.params⟩) := rfl
  rw [hrun] at hmk
  simp only [Except.ok.injEq, Prod.mk.injEq] at hmk
  obtain ⟨_hi, hw⟩ := hmk
  subst hw
  exact dictLookup_config_fold (plist_to_pdict cl) w.params name
    (plist_to_pdict_keys_nodup cl)

/-- Witness for C10's amended theorem: constructing an instance with
`x = [2]` over a shared dict holding `x = [1]` and `y = [9]` overwrites
`x` and preserves `y`. -/
theorem configure_overwrites_shared_params_witness :
    ∃ i w', ProspectrParams.init rp0 [pdX2] wXY = .ok (i, w') ∧
      dictLookup w'.params "x" = some [(2 : ℚ)] ∧
      dictLookup w'.params "y" = some [(9 : ℚ)] := by
  refine ⟨_, _, rfl, ?_, ?_⟩
  · exact (configure_overwrites_shared_params rp0 [pdX2] wXY _ _ rfl "x").trans
      (by decide)
  · exact (configure_overwrites_shared_params rp0 [pdX2] wXY _ _ rfl "y").trans
      (by decide)
